import Mathlib

/-!
# Verification of `datapane/view/xml_visitor.py`

A shallow embedding of the XML-building visitor of the datapane
python-client.  The visitor (`XMLBuilder`) walks a tree of blocks,
producing XML elements while extracting asset payloads into a
content-addressed file store.

Everything in `xml_visitor.py` is translated directly.  Collaborators that
live outside that file (the block classes, the `FileStore`, lxml's
`ElementMaker`, `gen_name`, `mk_attribs`, the asset writers) are modelled
from the specification; each such definition carries a doc comment saying
so.
-/

set_option autoImplicit false

namespace Datapane

/-! ## Python dict semantics for attribute mappings

Python keyword-argument dicts are modelled as association lists of
string pairs that remember insertion order.  `dictMerge a b` is the dict
literal `\x7b**a, **b\x7d`: the keys of `a` in order (values overridden by `b`
on collision) followed by the keys of `b` not present in `a`. -/

section AssocMap

variable {α : Type} {β : Type} [BEq α]

/-- First-match association lookup (Python dict access, lxml `get`). -/
def alookup : List (α × β) → α → Option β
  | [], _ => none
  | p :: tl, k => if p.1 == k then some p.2 else alookup tl k

/-- Key membership. -/
def akey : List (α × β) → α → Bool
  | [], _ => false
  | p :: tl, k => p.1 == k || akey tl k

/-- Overwrite an existing binding in place, or append a new one. -/
def aset (m : List (α × β)) (k : α) (v : β) : List (α × β) :=
  if akey m k then
    m.map (fun p => if p.1 == k then (k, v) else p)
  else
    m ++ [(k, v)]

end AssocMap

def dictMerge (a b : List (String × String)) : List (String × String) :=
  a.map (fun p => (p.1, (alookup b p.1).getD p.2)) ++
    b.filter (fun p => !(akey a p.1))

/-! ## XML elements

Modelled from the spec: lxml's element type, restricted to what the
visitor produces — a tag, an ordered attribute mapping, child elements,
and an optional CDATA text payload (`etree.CDATA`).  `set` is lxml's
`_Element.set`: overwrite an existing attribute in place or append. -/

inductive Element where
  | node (tag : String) (attrs : List (String × String))
      (children : List Element) (cdata : Option String)
  deriving Repr

def Element.tag : Element → String
  | .node t _ _ _ => t

def Element.attrs : Element → List (String × String)
  | .node _ a _ _ => a

def Element.children : Element → List Element
  | .node _ _ cs _ => cs

def Element.cdata : Element → Option String
  | .node _ _ _ cd => cd

def Element.set (e : Element) (k v : String) : Element :=
  match e with
  | .node t a cs cd => .node t (aset a k v) cs cd

def Element.getAttr (e : Element) (k : String) : Option String :=
  alookup e.attrs k

/-- Modelled from the spec: serialisation of an element tree
(`etree.tostring`), restricted to the escape-free attribute values the
concrete claims use; a CDATA payload is emitted raw between
`<![CDATA[` and `]]>`, never entity-escaped. -/
def renderAttrs (a : List (String × String)) : String :=
  a.foldl (fun acc p => acc ++ " " ++ p.1 ++ "=\"" ++ p.2 ++ "\"") ""

mutual

def render : Element → String
  | .node t a cs cd =>
      "<" ++ t ++ renderAttrs a ++ ">" ++
        (match cd with
         | some txt => "<![CDATA[" ++ txt ++ "]]>"
         | none => renderList cs) ++
        "</" ++ t ++ ">"

def renderList : List Element → String
  | [] => ""
  | c :: cs => render c ++ renderList cs

end

/-! ## Errors

The exceptions the visitor can raise: `DPClientError` (datapane's
client-facing error), Python's `TypeError` (a keyword argument passed
twice in one call), and an `assert` failure. -/

inductive PyError where
  | DPClientError (msg : String)
  | TypeError (msg : String)
  | AssertionError
  deriving Repr, DecidableEq

/-! ## The file store and asset writers -/

/-- Modelled from the spec: `AssetMeta = namedtuple("AssetMeta", "ext mime")`
(this one is in the source file). -/
structure AssetMeta where
  ext : String
  mime : String
  deriving Repr, DecidableEq

/-- Modelled from the spec: a `FileEntry` of the content store — content
hash, mime type, extension, plus its concrete class (`type(entry)`,
compared against the store's `fw_klass`). -/
structure FileEntry where
  klass : Nat
  hash : String
  mime : String
  ext : String
  deriving Repr, DecidableEq

/-- Modelled from the spec: an inline asset payload (`b.data`).  It
carries the name of its Python runtime type, its serialised bytes, and
the result of the asset-writer dispatch on it: `wMeta = none` means no
writer capability is registered for this concrete data type, i.e. the
writer's multimethod raises `DispatchError` (the writers live in
`datapane.view.asset_writers`, outside this file). -/
structure DataVal where
  tyName : String
  bytes : String
  wMeta : Option AssetMeta
  deriving Repr, DecidableEq

/-- Modelled from the spec: the content store.  `fw_klass` is the
concrete entry class the store expects, `files` the registered entries,
`fresh` a source of fresh content hashes for allocation, and `writes`
the log of payload writes performed by asset writers. -/
structure FileStore where
  fw_klass : Nat
  files : List FileEntry
  fresh : Nat
  writes : List String
  deriving Repr, DecidableEq

/-- Modelled from the spec: `get_file(ext, mime)` allocates a fresh
entry of the store's own class. -/
def FileStore.get_file (s : FileStore) (ext mime : String) :
    FileEntry × FileStore :=
  (⟨s.fw_klass, "h" ++ toString s.fresh, mime, ext⟩,
    { s with fresh := s.fresh + 1 })

/-- Modelled from the spec: `add_file(entry)` registers an entry,
deduplicating (an idempotent re-add). -/
def FileStore.add_file (s : FileStore) (fe : FileEntry) : FileStore :=
  if fe ∈ s.files then s else { s with files := s.files ++ [fe] }

/-- Modelled from the spec: `load_file(path)` imports a pre-existing
file directly as a registered entry of the store's class. -/
def FileStore.load_file (s : FileStore) (path : String) :
    FileEntry × FileStore :=
  let fe : FileEntry :=
    ⟨s.fw_klass, "f" ++ path, "application/octet-stream", ""⟩
  (fe, s.add_file fe)

/-- Modelled from the spec: `writer.write_file(data, fe.file)` serialises
the payload into the entry's byte sink; we record the write in the
store's log. -/
def writer_write_file (d : DataVal) (s : FileStore) : FileStore :=
  { s with writes := s.writes ++ [d.bytes] }

/-! ## Blocks

Modelled from the spec: the block class hierarchy of `datapane.blocks`
is an external collaborator.  Each block exposes a tag name and a
string-keyed attribute mapping (`_attributes`).  Asset blocks
additionally expose optional inline data, an optional file reference, an
optional caption, file-specific attributes (`get_file_attribs`) and a
memoized prior store entry slot (`_prev_entry`, held here in the
visitor state keyed by the block's identity `aid`).  An Interactive
block exposes its control sub-tree already converted to its own node
representation (`b.controls._to_xml()`) and a target-placement mode. -/

inductive TargetMode where
  | SELF
  | BELOW
  | SIDE
  | other
  deriving Repr, DecidableEq

structure AssetData where
  aid : Nat
  tag : String
  attrs : List (String × String)
  fileAttribs : List (String × String)
  data : Option DataVal
  file : Option String
  caption : Option String
  deriving Repr, DecidableEq

inductive Block where
  | base (tag : String) (attrs : List (String × String))
  | container (tag : String) (attrs : List (String × String))
      (blocks : List Block)
  | text (tag : String) (attrs : List (String × String)) (content : String)
  | interactive (attrs : List (String × String)) (controls : Element)
      (target : TargetMode)
  | asset (b : AssetData)

/-- Modelled from the spec: a `View` is the root wrapper — a fragment
flag plus the top-level child blocks its `traverse` visits. -/
structure View where
  fragment : Bool
  blocks : List Block

/-- Modelled from the spec: `gen_name` from `datapane.blocks.interactive`
returns a document-globally unique fresh name; we model it as a counter
threaded through the visitor. -/
def gen_name (n : Nat) : String :=
  "anon-" ++ toString n

/-- Modelled from the spec: `mk_attribs(version=..., fragment=...)` from
`datapane.common.viewxml_utils` stringifies the root attributes, a bool
becoming `"true"` or `"false"`. -/
def mk_attribs (version : String) (fragment : Bool) :
    List (String × String) :=
  [("version", version), ("fragment", if fragment then "true" else "false")]

/-! ## The visitor state

`XMLBuilder` from `xml_visitor.py`: the store plus the accumulator list
of elements at the current tree location.  `prev` holds each asset
block's mutable `_prev_entry` slot (keyed by block identity) and
`nameCtr` the `gen_name` counter. -/

structure XMLBuilder where
  store : FileStore
  elements : List Element
  prev : List (Nat × FileEntry)
  nameCtr : Nat
  deriving Repr

/-- Method `XMLBuilder.add_element`: append an element to the accumulator. -/
def XMLBuilder.add_element (s : XMLBuilder) (e : Element) : XMLBuilder :=
  { s with elements := s.elements ++ [e] }

/-- Property `store_count`: diagnostic count of registered files. -/
def XMLBuilder.store_count (s : XMLBuilder) : Nat :=
  s.store.files.length

/-! ## Asset extraction (`_add_asset_to_store`) -/

/-- The un-memoized part of `_add_asset_to_store`: inline data is
serialised through the writer capability (a dispatch miss on the
payload's concrete type raises `DispatchError`, translated to
`DPClientError`); otherwise a file reference is imported; otherwise the
missing-asset error is raised. -/
def add_asset_uncached (st : FileStore) (b : AssetData) :
    Except PyError (FileEntry × FileStore) :=
  match b.data with
  | some d =>
      match d.wMeta with
      | some meta =>
          let r := st.get_file meta.ext meta.mime
          let st2 := writer_write_file d r.2
          let st3 := st2.add_file r.1
          .ok (r.1, st3)
      | none =>
          .error (.DPClientError (d.tyName ++ " not supported for XMLBuilder"))
  | none =>
      match b.file with
      | some p => .ok (st.load_file p)
      | none => .error (.DPClientError "No asset to add")

/-- Method `_add_asset_to_store`: if the block's memoized `_prev_entry` is set
and its concrete class is the store's `fw_klass`, re-register it and
return it; otherwise extract afresh and memoize the result
(`b._prev_entry = fe`).  Returns the entry, the new `_prev_entry` slot
value, and the new store. -/
def _add_asset_to_store (st : FileStore) (prev : Option FileEntry)
    (b : AssetData) : Except PyError (FileEntry × FileEntry × FileStore) :=
  match prev with
  | some pe =>
      if pe.klass = st.fw_klass then
        .ok (pe, pe, st.add_file pe)
      else
        (add_asset_uncached st b).map (fun r => (r.1, r.1, r.2))
  | none =>
      (add_asset_uncached st b).map (fun r => (r.1, r.1, r.2))

/-- The keyword-argument dict of the asset element call, in evaluation
order: `type=fe.mime` first, then the merged block/file attributes, then
`src="ref://" + fe.hash`. -/
def asset_element_attrs (b : AssetData) (fe : FileEntry) :
    List (String × String) :=
  ("type", fe.mime) ::
    (dictMerge b.attrs b.fileAttribs ++ [("src", "ref://" ++ fe.hash)])

/-- The element construction of `visit(AssetBlock)`:
`_E(type=fe.mime, **\x7b**b._attributes, **b.get_file_attribs()\x7d,
src="ref://" + fe.hash)` followed by `e.set("caption", b.caption)` when
the caption is truthy.  Python raises `TypeError` when the merged dict
already contains the keyword `type` or `src`. -/
def mk_asset_element (b : AssetData) (fe : FileEntry) :
    Except PyError Element :=
  if akey (dictMerge b.attrs b.fileAttribs) "type" ||
      akey (dictMerge b.attrs b.fileAttribs) "src" then
    .error (.TypeError "got multiple values for keyword argument")
  else
    .ok (match b.caption with
         | some c =>
             if c = "" then .node b.tag (asset_element_attrs b fe) [] none
             else (Element.node b.tag (asset_element_attrs b fe) [] none).set
               "caption" c
         | none => .node b.tag (asset_element_attrs b fe) [] none)

/-- The `BELOW`/`SIDE` desugaring of `visit(Interactive)`: a synthetic
`Group` with the control node (`target=name`) and a one-column
placeholder `Group` holding an `Empty` node named `name`. -/
def interactive_split (a : List (String × String)) (ce : Element)
    (cols : String) (name : String) : Element :=
  .node "Group" [("columns", cols)]
    [.node "Interactive" (dictMerge a [("target", name)]) [ce] none,
     .node "Group" [("columns", "1")]
       [.node "Empty" [("name", name)] [] none] none]
    none

/-! ## The traversal (`visit` multimethods)

One `visit` rule per block variant; a container saves the accumulator,
recurses into its children with a fresh one, wraps the accumulated
child elements, restores the caller's accumulator and appends itself. -/

mutual

def visit : Block → XMLBuilder → Except PyError XMLBuilder
  | .base t a, s =>
      .ok (s.add_element (.node t a [] none))
  | .container t a bs, s =>
      match visitList bs { s with elements := [] } with
      | .ok s2 =>
          .ok { s2 with elements := s.elements ++ [.node t a s2.elements none] }
      | .error e => .error e
  | .text t a content, s =>
      .ok (s.add_element (.node t a [] (some content)))
  | .interactive a ce tm, s =>
      match tm with
      | .SELF =>
          let name := gen_name s.nameCtr
          .ok { s with
                nameCtr := s.nameCtr + 1,
                elements := s.elements ++
                  [.node "Interactive"
                    (dictMerge a [("target", name), ("name", name)]) [ce] none] }
      | .BELOW =>
          let name := gen_name s.nameCtr
          .ok { s with
                nameCtr := s.nameCtr + 1,
                elements := s.elements ++ [interactive_split a ce "1" name] }
      | .SIDE =>
          let name := gen_name s.nameCtr
          .ok { s with
                nameCtr := s.nameCtr + 1,
                elements := s.elements ++ [interactive_split a ce "2" name] }
      | .other =>
          .ok (s.add_element (.node "Interactive" a [ce] none))
  | .asset b, s =>
      match _add_asset_to_store s.store (alookup s.prev b.aid) b with
      | .error e => .error e
      | .ok (fe, pv, st2) =>
          match mk_asset_element b fe with
          | .error e => .error e
          | .ok e =>
              .ok { s with
                    store := st2,
                    prev := aset s.prev b.aid pv,
                    elements := s.elements ++ [e] }

def visitList : List Block → XMLBuilder → Except PyError XMLBuilder
  | [], s => .ok s
  | b :: bs, s =>
      match visit b s with
      | .ok s1 => visitList bs s1
      | .error e => .error e

end

/-- Rule `visit(View)`: asserts the accumulator is empty, traverses the
children, and wraps them in the root `View` element carrying
`version="1"` and the stringified fragment flag; the document becomes
the sole content of the accumulator. -/
def visitView (v : View) (s : XMLBuilder) : Except PyError XMLBuilder :=
  match s.elements with
  | [] =>
      match visitList v.blocks s with
      | .ok s1 =>
          .ok { s1 with
                elements :=
                  [.node "View" (mk_attribs "1" v.fragment) s1.elements none] }
      | .error e => .error e
  | _ :: _ =>
      .error .AssertionError

/-! The asset-block identities occurring in a block tree (used to state
the frame property of the traversal). -/

mutual

def assetIds : Block → List Nat
  | .base _ _ => []
  | .container _ _ bs => assetIdsList bs
  | .text _ _ _ => []
  | .interactive _ _ _ => []
  | .asset b => [b.aid]

def assetIdsList : List Block → List Nat
  | [] => []
  | b :: bs => assetIds b ++ assetIdsList bs

end

/-! ## Association-list lemmas -/

theorem alookup_append_left {α β : Type} [BEq α] {a : List (α × β)} {k : α}
    {v : β} (b : List (α × β)) (h : alookup a k = some v) :
    alookup (a ++ b) k = some v := by
  induction a with
  | nil => simp [alookup] at h
  | cons p tl ih =>
      cases hp : p.1 == k with
      | true => simpa [alookup, hp] using h
      | false =>
          simp only [alookup, hp] at h
          simpa [alookup, hp] using ih h

theorem alookup_append_right {α β : Type} [BEq α] {a : List (α × β)} {k : α}
    (b : List (α × β)) (h : alookup a k = none) :
    alookup (a ++ b) k = alookup b k := by
  induction a with
  | nil => simp
  | cons p tl ih =>
      cases hp : p.1 == k with
      | true => simp [alookup, hp] at h
      | false =>
          simp only [alookup, hp] at h
          simpa [alookup, hp] using ih h

theorem akey_false_alookup {α β : Type} [BEq α] {m : List (α × β)} {k : α}
    (h : akey m k = false) : alookup m k = none := by
  induction m with
  | nil => rfl
  | cons p tl ih =>
      simp only [akey, Bool.or_eq_false_iff] at h
      simpa [alookup, h.1] using ih h.2

theorem alookup_some_of_akey {α β : Type} [BEq α] {m : List (α × β)} {k : α}
    (h : akey m k = true) : ∃ v, alookup m k = some v := by
  induction m with
  | nil => simp [akey] at h
  | cons p tl ih =>
      cases hp : p.1 == k with
      | true => exact ⟨p.2, by simp [alookup, hp]⟩
      | false =>
          simp only [akey, hp, Bool.false_or] at h
          simpa [alookup, hp] using ih h

theorem alookup_map_set {α β : Type} [BEq α] [LawfulBEq α]
    {m : List (α × β)} {k : α} (v : β) (h : akey m k = true) :
    alookup (m.map (fun p => if p.1 == k then (k, v) else p)) k = some v := by
  induction m with
  | nil => simp [akey] at h
  | cons p tl ih =>
      cases hp : p.1 == k with
      | true => simp [List.map_cons, alookup, hp]
      | false =>
          simp only [akey, hp, Bool.false_or] at h
          simpa [List.map_cons, alookup, hp] using ih h

theorem aset_alookup_same {α β : Type} [BEq α] [LawfulBEq α]
    (m : List (α × β)) (k : α) (v : β) :
    alookup (aset m k v) k = some v := by
  unfold aset
  cases hm : akey m k with
  | true => simpa using alookup_map_set v hm
  | false =>
      simp only [Bool.false_eq_true, if_false]
      rw [alookup_append_right _ (akey_false_alookup hm)]
      simp [alookup]

theorem alookup_map_other {α β : Type} [BEq α] [LawfulBEq α]
    {m : List (α × β)} {k : α} (v : β) {j : α} (hkj : (k == j) = false) :
    alookup (m.map (fun p => if p.1 == k then (k, v) else p)) j =
      alookup m j := by
  induction m with
  | nil => rfl
  | cons p tl ih =>
      cases hp : p.1 == k with
      | true =>
          have hpj : (p.1 == j) = false := by rw [eq_of_beq hp]; exact hkj
          simpa [List.map_cons, alookup, hp, hpj, hkj] using ih
      | false =>
          cases hpj : p.1 == j with
          | true => simp [List.map_cons, alookup, hp, hpj]
          | false => simpa [List.map_cons, alookup, hp, hpj] using ih

theorem dict_akey_false_of_none {a : List (String × String)} {k : String}
    (h : alookup a k = none) : akey a k = false := by
  cases hk : akey a k with
  | false => rfl
  | true =>
      obtain ⟨v, hv⟩ := alookup_some_of_akey hk
      rw [show alookup a k = alookup a k from rfl, hv] at h
      cases h

theorem dict_override_alookup (a b : List (String × String)) (k : String) :
    alookup (a.map (fun p => (p.1, (alookup b p.1).getD p.2))) k =
      (alookup a k).map (fun v => (alookup b k).getD v) := by
  induction a with
  | nil => rfl
  | cons p tl ih =>
      cases hp : p.1 == k with
      | true =>
          have hpk : p.1 = k := eq_of_beq hp
          simp [alookup, List.map_cons, alookup, hp, hpk]
      | false => simpa [alookup, List.map_cons, alookup, hp] using ih

theorem dict_filter_alookup (a : List (String × String))
    (b : List (String × String)) (k : String) (h : akey a k = false) :
    alookup (b.filter (fun p => !(akey a p.1))) k = alookup b k := by
  induction b with
  | nil => rfl
  | cons q tl ih =>
      cases hq : q.1 == k with
      | true =>
          have hqk : q.1 = k := eq_of_beq hq
          rw [List.filter_cons, hqk, h]
          simp [alookup, hq, hqk]
      | false =>
          cases hf : akey a q.1 with
          | true =>
              rw [List.filter_cons, hf]
              simpa [alookup, hq] using ih
          | false =>
              rw [List.filter_cons, hf]
              simpa [alookup, hq] using ih

theorem dictMerge_lookup_some {b : List (String × String)} {k : String}
    {v : String} (a : List (String × String)) (h : alookup b k = some v) :
    alookup (dictMerge a b) k = some v := by
  unfold dictMerge
  cases ha : alookup a k with
  | some w =>
      have h1 : alookup
          (a.map (fun p => (p.1, (alookup b p.1).getD p.2))) k =
          some ((alookup b k).getD w) := by
        rw [dict_override_alookup, ha]; rfl
      rw [h] at h1
      exact alookup_append_left _ h1
  | none =>
      have h1 : alookup
          (a.map (fun p => (p.1, (alookup b p.1).getD p.2))) k = none := by
        rw [dict_override_alookup, ha]; rfl
      rw [alookup_append_right _ h1]
      rw [dict_filter_alookup a b k (dict_akey_false_of_none ha)]
      exact h

theorem dictMerge_lookup_none {b : List (String × String)} {k : String}
    (a : List (String × String)) (h : alookup b k = none) :
    alookup (dictMerge a b) k = alookup a k := by
  unfold dictMerge
  cases ha : alookup a k with
  | some w =>
      have h1 : alookup
          (a.map (fun p => (p.1, (alookup b p.1).getD p.2))) k =
          some ((alookup b k).getD w) := by
        rw [dict_override_alookup, ha]; rfl
      rw [h] at h1
      exact alookup_append_left _ h1
  | none =>
      have h1 : alookup
          (a.map (fun p => (p.1, (alookup b p.1).getD p.2))) k = none := by
        rw [dict_override_alookup, ha]; rfl
      rw [alookup_append_right _ h1]
      rw [dict_filter_alookup a b k (dict_akey_false_of_none ha)]
      exact h

theorem aset_alookup_other {α β : Type} [BEq α] [LawfulBEq α]
    (m : List (α × β)) (k : α) (v : β) (j : α) (h : j ≠ k) :
    alookup (aset m k v) j = alookup m j := by
  have hkj : (k == j) = false := by
    cases hx : k == j
    · rfl
    · exact absurd (eq_of_beq hx).symm h
  unfold aset
  cases hm : akey m k with
  | true => simpa using alookup_map_other v hkj
  | false =>
      simp only [Bool.false_eq_true, if_false]
      cases hj : alookup m j with
      | some w => simp [alookup_append_left _ hj]
      | none =>
          rw [alookup_append_right _ hj]
          simp [alookup, hkj]

/-! ## Store bookkeeping lemmas -/

theorem add_file_fw_klass (s : FileStore) (fe : FileEntry) :
    (s.add_file fe).fw_klass = s.fw_klass := by
  unfold FileStore.add_file
  split <;> rfl

theorem add_file_writes (s : FileStore) (fe : FileEntry) :
    (s.add_file fe).writes = s.writes := by
  unfold FileStore.add_file
  split <;> rfl

theorem add_file_fresh (s : FileStore) (fe : FileEntry) :
    (s.add_file fe).fresh = s.fresh := by
  unfold FileStore.add_file
  split <;> rfl

/-! ## Structural lemmas about the traversal -/

theorem add_asset_slot_eq_entry (st : FileStore) (pv : Option FileEntry)
    (b : AssetData) (r : FileEntry × FileEntry × FileStore)
    (h : _add_asset_to_store st pv b = .ok r) : r.2.1 = r.1 := by
  unfold _add_asset_to_store at h
  cases pv with
  | some pe =>
      by_cases hk : pe.klass = st.fw_klass
      · simp [hk] at h
        rw [← h]
      · simp [hk, Except.map] at h
        cases hu : add_asset_uncached st b with
        | ok r2 => rw [hu] at h; simp at h; rw [← h]
        | error e => rw [hu] at h; simp at h
  | none =>
      simp [Except.map] at h
      cases hu : add_asset_uncached st b with
      | ok r2 => rw [hu] at h; simp at h; rw [← h]
      | error e => rw [hu] at h; simp at h

mutual

theorem visit_one (b : Block) (s s' : XMLBuilder) (h : visit b s = .ok s') :
    ∃ e, s'.elements = s.elements ++ [e] := by
  cases b with
  | base t a =>
      refine ⟨.node t a [] none, ?_⟩
      simp [visit, XMLBuilder.add_element] at h
      rw [← h]
  | container t a bs =>
      cases hv : visitList bs { s with elements := [] } with
      | ok s2 =>
          refine ⟨.node t a s2.elements none, ?_⟩
          simp [visit, hv] at h
          rw [← h]
      | error e => simp [visit, hv] at h
  | text t a c =>
      refine ⟨.node t a [] (some c), ?_⟩
      simp [visit, XMLBuilder.add_element] at h
      rw [← h]
  | interactive a ce tm =>
      cases tm <;> simp [visit, XMLBuilder.add_element] at h <;>
        exact ⟨_, by rw [← h]⟩
  | asset ab =>
      cases hx : _add_asset_to_store s.store (alookup s.prev ab.aid) ab with
      | ok r =>
          obtain ⟨fe, pv, st2⟩ := r
          cases hm : mk_asset_element ab fe with
          | ok e =>
              refine ⟨e, ?_⟩
              simp [visit, hx, hm] at h
              rw [← h]
          | error e => simp [visit, hx, hm] at h
      | error e => simp [visit, hx] at h

theorem visitList_elems (bs : List Block) (s s' : XMLBuilder)
    (h : visitList bs s = .ok s') :
    ∃ es, s'.elements = s.elements ++ es ∧ es.length = bs.length := by
  cases bs with
  | nil =>
      simp [visitList] at h
      exact ⟨[], by rw [← h]; simp, rfl⟩
  | cons b tl =>
      cases hv : visit b s with
      | ok s1 =>
          simp [visitList, hv] at h
          obtain ⟨e, he⟩ := visit_one b s s1 hv
          obtain ⟨es, hes, hlen⟩ := visitList_elems tl s1 s' h
          exact ⟨e :: es, by rw [hes, he]; simp, by simp [hlen]⟩
      | error e => simp [visitList, hv] at h

end

mutual

theorem visit_prev_frame (b : Block) (s s' : XMLBuilder) (i : Nat)
    (h : visit b s = .ok s') (hi : i ∉ assetIds b) :
    alookup s'.prev i = alookup s.prev i := by
  cases b with
  | base t a =>
      simp [visit, XMLBuilder.add_element] at h
      rw [← h]
  | container t a bs =>
      cases hv : visitList bs { s with elements := [] } with
      | ok s2 =>
          simp [visit, hv] at h
          have := visitList_prev_frame bs { s with elements := [] } s2 i hv
            (by simpa [assetIds] using hi)
          rw [← h]
          exact this
      | error e => simp [visit, hv] at h
  | text t a c =>
      simp [visit, XMLBuilder.add_element] at h
      rw [← h]
  | interactive a ce tm =>
      cases tm <;> simp [visit, XMLBuilder.add_element] at h <;> rw [← h]
  | asset ab =>
      cases hx : _add_asset_to_store s.store (alookup s.prev ab.aid) ab with
      | ok r =>
          obtain ⟨fe, pv, st2⟩ := r
          cases hm : mk_asset_element ab fe with
          | ok e =>
              simp [visit, hx, hm] at h
              rw [← h]
              simp only []
              have hne : i ≠ ab.aid := by simpa [assetIds] using hi
              exact aset_alookup_other s.prev ab.aid pv i hne
          | error e => simp [visit, hx, hm] at h
      | error e => simp [visit, hx] at h

theorem visitList_prev_frame (bs : List Block) (s s' : XMLBuilder) (i : Nat)
    (h : visitList bs s = .ok s') (hi : i ∉ assetIdsList bs) :
    alookup s'.prev i = alookup s.prev i := by
  cases bs with
  | nil =>
      simp [visitList] at h
      rw [← h]
  | cons b tl =>
      cases hv : visit b s with
      | ok s1 =>
          simp [visitList, hv] at h
          simp [assetIdsList] at hi
          rw [visitList_prev_frame tl s1 s' i h (by simp [hi.2]),
            visit_prev_frame b s s1 i hv (by simp [hi.1])]
      | error e => simp [visitList, hv] at h

end

/-! ## The attributes of a successfully built asset element -/

theorem beq_false_of_ne {α : Type} [BEq α] [LawfulBEq α] {x y : α}
    (h : x ≠ y) : (x == y) = false := by
  cases hx : x == y with
  | false => rfl
  | true => exact absurd (eq_of_beq hx) h

theorem alookup_pair_cons {α β : Type} [BEq α] (k : α) (v : β)
    (tl : List (α × β)) (q : α) :
    alookup ((k, v) :: tl) q = if k == q then some v else alookup tl q := rfl

theorem mk_asset_element_attrs (b : AssetData) (fe : FileEntry)
    (ht : akey (dictMerge b.attrs b.fileAttribs) "type" = false)
    (hs : akey (dictMerge b.attrs b.fileAttribs) "src" = false) :
    ∃ e, mk_asset_element b fe = .ok e ∧
      e.getAttr "type" = some fe.mime ∧
      e.getAttr "src" = some ("ref://" ++ fe.hash) ∧
      (∀ k, k ≠ "type" → k ≠ "src" → k ≠ "caption" →
          e.getAttr k = alookup (dictMerge b.attrs b.fileAttribs) k) ∧
      (b.caption = none →
          e.getAttr "caption" = alookup (dictMerge b.attrs b.fileAttribs) "caption") ∧
      (∀ c, b.caption = some c → c ≠ "" → e.getAttr "caption" = some c) ∧
      e.tag = b.tag := by
  have base_ty : alookup (asset_element_attrs b fe) "type" = some fe.mime := by
    simp [asset_element_attrs, alookup_pair_cons]
  have base_src : alookup (asset_element_attrs b fe) "src" =
      some ("ref://" ++ fe.hash) := by
    unfold asset_element_attrs
    rw [alookup_pair_cons]
    simp only [show (("type" : String) == "src") = false from by decide,
      Bool.false_eq_true, if_false]
    rw [alookup_append_right _ (akey_false_alookup hs)]
    simp [alookup]
  have base_gen : ∀ k, k ≠ "type" → k ≠ "src" →
      alookup (asset_element_attrs b fe) k =
        alookup (dictMerge b.attrs b.fileAttribs) k := by
    intro k hk1 hk2
    unfold asset_element_attrs
    rw [alookup_pair_cons]
    simp only [beq_false_of_ne (Ne.symm hk1), Bool.false_eq_true, if_false]
    cases hv : alookup (dictMerge b.attrs b.fileAttribs) k with
    | some w => exact alookup_append_left _ hv
    | none =>
        rw [alookup_append_right _ hv]
        simp [alookup_pair_cons, beq_false_of_ne (Ne.symm hk2), alookup]
  unfold mk_asset_element
  rw [ht, hs]
  simp only [Bool.or_false, Bool.false_eq_true, if_false]
  cases hc : b.caption with
  | none =>
      refine ⟨_, rfl, base_ty, base_src, ?_, ?_, ?_, rfl⟩
      · intro k h1 h2 _
        exact base_gen k h1 h2
      · intro _
        exact base_gen "caption" (by decide) (by decide)
      · intro c hcc
        cases hcc
  | some c =>
      by_cases hce : c = ""
      · subst hce
        refine ⟨Element.node b.tag (asset_element_attrs b fe) [] none,
          congrArg Except.ok (if_pos rfl), base_ty, base_src, ?_, ?_, ?_, rfl⟩
        · intro k h1 h2 _
          exact base_gen k h1 h2
        · intro hn
          cases hn
        · intro c' hc' hne
          cases hc'
          exact absurd rfl hne
      · refine ⟨(Element.node b.tag (asset_element_attrs b fe) [] none).set
            "caption" c,
          congrArg Except.ok (if_neg hce), ?_, ?_, ?_, ?_, ?_, rfl⟩
        · show alookup (aset (asset_element_attrs b fe) "caption" c) "type" =
            some fe.mime
          rw [aset_alookup_other _ _ _ _ (by decide)]
          exact base_ty
        · show alookup (aset (asset_element_attrs b fe) "caption" c) "src" =
            some ("ref://" ++ fe.hash)
          rw [aset_alookup_other _ _ _ _ (by decide)]
          exact base_src
        · intro k h1 h2 h3
          show alookup (aset (asset_element_attrs b fe) "caption" c) k =
            alookup (dictMerge b.attrs b.fileAttribs) k
          rw [aset_alookup_other _ _ _ _ h3]
          exact base_gen k h1 h2
        · intro hn
          cases hn
        · intro c' hc' _
          injection hc' with hcc
          subst hcc
          exact aset_alookup_same _ "caption" c

/-! ## The inline-data extraction path, fully computed -/

theorem add_asset_data_branch (st : FileStore) (b : AssetData) (d : DataVal)
    (meta : AssetMeta) (hdata : b.data = some d)
    (hmeta : d.wMeta = some meta) :
    add_asset_uncached st b = .ok
      (⟨st.fw_klass, "h" ++ toString st.fresh, meta.mime, meta.ext⟩,
        FileStore.add_file
          { st with fresh := st.fresh + 1, writes := st.writes ++ [d.bytes] }
          ⟨st.fw_klass, "h" ++ toString st.fresh, meta.mime, meta.ext⟩) := by
  unfold add_asset_uncached
  rw [hdata]
  dsimp only
  rw [hmeta]
  rfl

/-! ## Concrete inputs used by the witnesses -/

def exStore : FileStore := ⟨0, [], 0, []⟩

def exBuilder : XMLBuilder := ⟨exStore, [], [], 0⟩

def exView : View := ⟨false, [.container "Group" [] [.text "Text" [] "hi"]]⟩

def exViewOut : XMLBuilder :=
  ⟨exStore,
    [.node "View" [("version", "1"), ("fragment", "false")]
      [.node "Group" [] [.node "Text" [] [] (some "hi")] none] none],
    [], 0⟩

def exContainerOut : XMLBuilder :=
  ⟨exStore, [.node "Group" [] [.node "Text" [] [] (some "hi")] none], [], 0⟩

def exMeta : AssetMeta := ⟨"png", "image/png"⟩

def exData : DataVal := ⟨"Figure", "plot-bytes", some exMeta⟩

def exBadData : DataVal := ⟨"Frobnicator", "x", none⟩

def exAsset : AssetData :=
  ⟨3, "Plot", [("k", "v")], [("fk", "fv")], some exData, none, some "cap"⟩

def exBadAsset : AssetData :=
  ⟨3, "Plot", [], [], some exBadData, none, none⟩

def exEmptyAsset : AssetData := ⟨3, "Plot", [], [], none, none, none⟩

def exKwAsset : AssetData :=
  ⟨3, "Plot", [("type", "boom")], [], none, some "p.bin", none⟩

def exMemoEntry : FileEntry := ⟨0, "hx", "text/plain", "txt"⟩

def exMemoBuilder : XMLBuilder := ⟨exStore, [], [(3, exMemoEntry)], 0⟩

/-! ## The claims -/

/-- Claim C1: For every Interactive block, `visit` desugars according to
its target-placement mode: with mode `SELF` it emits exactly one
`Interactive` node containing the control content with attributes equal
to the block's attributes plus `target=name` and `name=name` for a
freshly generated name; with mode `BELOW` or `SIDE` it emits a `Group`
node with exactly two children — first an `Interactive` node with the
control content and `target=name`, second a `Group` node with
`columns="1"` containing a single `Empty` node with `name=name` — where
the outer `Group`'s `columns` attribute is `"1"` for `BELOW` and `"2"`
for `SIDE`; with any other mode it emits an `Interactive` node with the
control content and only the block's own attributes. -/
theorem visit_interactive_target_desugar (a : List (String × String))
    (ce : Element) (s : XMLBuilder) :
    visit (.interactive a ce .SELF) s = .ok { s with
      nameCtr := s.nameCtr + 1,
      elements := s.elements ++
        [.node "Interactive"
          (dictMerge a
            [("target", gen_name s.nameCtr), ("name", gen_name s.nameCtr)])
          [ce] none] } ∧
    visit (.interactive a ce .BELOW) s = .ok { s with
      nameCtr := s.nameCtr + 1,
      elements := s.elements ++
        [.node "Group" [("columns", "1")]
          [.node "Interactive"
            (dictMerge a [("target", gen_name s.nameCtr)]) [ce] none,
           .node "Group" [("columns", "1")]
             [.node "Empty" [("name", gen_name s.nameCtr)] [] none] none]
          none] } ∧
    visit (.interactive a ce .SIDE) s = .ok { s with
      nameCtr := s.nameCtr + 1,
      elements := s.elements ++
        [.node "Group" [("columns", "2")]
          [.node "Interactive"
            (dictMerge a [("target", gen_name s.nameCtr)]) [ce] none,
           .node "Group" [("columns", "1")]
             [.node "Empty" [("name", gen_name s.nameCtr)] [] none] none]
          none] } ∧
    visit (.interactive a ce .other) s = .ok { s with
      elements := s.elements ++ [.node "Interactive" a [ce] none] } :=
  ⟨rfl, rfl, rfl, rfl⟩

/-- Claim C8: For every Text block, `visit` emits a node whose payload is
the block's literal text content marked as unescaped character data
(CDATA): even when the content contains XML-reserved characters such as
`<` or `&`, they appear raw in the output payload and are never
entity-escaped. -/
theorem visit_text_literal_cdata (t : String) (a : List (String × String))
    (c : String) (s : XMLBuilder) :
    visit (.text t a c) s =
      .ok { s with elements := s.elements ++ [.node t a [] (some c)] } ∧
    render (.node t a [] (some c)) =
      "<" ++ t ++ renderAttrs a ++ ">" ++ ("<![CDATA[" ++ c ++ "]]>") ++
        "</" ++ t ++ ">" ∧
    render (.node "Text" [] [] (some "a<b&c")) =
      "<Text><![CDATA[a<b&c]]></Text>" :=
  ⟨rfl, rfl, rfl⟩

/-- Claim C6: For every Container block, `visit` saves the caller's
accumulator, recurses into the children with a fresh empty accumulator,
builds a node with the container's tag and attributes whose child
sequence is exactly the children's produced nodes in original order,
restores the caller's accumulator, and appends the built node to it;
hence (every successful visit of any block appending exactly one node)
the output node structure's shape mirrors the input tree's shape 1:1. -/
theorem visit_container_mirror (t : String) (a : List (String × String))
    (bs : List Block) (s s' : XMLBuilder)
    (h : visit (.container t a bs) s = .ok s') :
    (∃ s2, visitList bs { s with elements := [] } = .ok s2 ∧
        s' = { s2 with
               elements := s.elements ++ [.node t a s2.elements none] } ∧
        s2.elements.length = bs.length) ∧
    ∀ (c : Block) (u u' : XMLBuilder), visit c u = .ok u' →
      ∃ e, u'.elements = u.elements ++ [e] := by
  constructor
  · cases hv : visitList bs { s with elements := [] } with
    | ok s2 =>
        refine ⟨s2, rfl, ?_, ?_⟩
        · simp [visit, hv] at h
          exact h.symm
        · obtain ⟨es, hes, hlen⟩ := visitList_elems bs _ s2 hv
          have hes2 : s2.elements = [] ++ es := hes
          rw [hes2, List.nil_append]
          exact hlen
    | error e => simp [visit, hv] at h
  · exact fun c u u' hc => visit_one c u u' hc

/-- Witness for the container claim at a concrete one-child tree. -/
theorem visit_container_mirror_w :
    (∃ s2, visitList [Block.text "Text" [] "hi"]
          { exBuilder with elements := [] } = .ok s2 ∧
        exContainerOut = { s2 with
          elements := exBuilder.elements ++
            [.node "Group" [] s2.elements none] } ∧
        s2.elements.length = [Block.text "Text" [] "hi"].length) ∧
    ∀ (c : Block) (u u' : XMLBuilder), visit c u = .ok u' →
      ∃ e, u'.elements = u.elements ++ [e] :=
  visit_container_mirror "Group" [] [Block.text "Text" [] "hi"]
    exBuilder exContainerOut rfl

/-- Claim C7: For every View visited as the traversal root, the sole
output is one document whose root node has tag `View` and attributes
`version="1"` and `fragment` reflecting the View's fragment flag
(`"true"` or `"false"`), wrapping the child's realized node tree; in
particular, a View with `fragment` false containing a Container tagged
`Group` with one Text child `hi` renders to
`<View version="1" fragment="false"><Group><Text><![CDATA[hi]]></Text></Group></View>`. -/
theorem visit_view_root (v : View) (s s' : XMLBuilder)
    (h0 : s.elements = []) (h : visitView v s = .ok s') :
    (∃ s1, visitList v.blocks s = .ok s1 ∧
        s'.elements = [.node "View"
          [("version", "1"),
           ("fragment", if v.fragment then "true" else "false")]
          s1.elements none]) ∧
    (visitView exView exBuilder).toOption.map
        (fun u => u.elements.map render) =
      some ["<View version=\"1\" fragment=\"false\"><Group><Text><![CDATA[hi]]></Text></Group></View>"] := by
  refine ⟨?_, rfl⟩
  unfold visitView at h
  rw [h0] at h
  dsimp only at h
  cases hv : visitList v.blocks s with
  | ok s1 =>
      rw [hv] at h
      dsimp only at h
      refine ⟨s1, rfl, ?_⟩
      injection h with h2
      rw [← h2]
      rfl
  | error e =>
      rw [hv] at h
      cases h

/-- Witness for the View-root claim at the concrete minimal View. -/
theorem visit_view_root_w :
    (∃ s1, visitList exView.blocks exBuilder = .ok s1 ∧
        exViewOut.elements = [.node "View"
          [("version", "1"),
           ("fragment", if exView.fragment then "true" else "false")]
          s1.elements none]) ∧
    (visitView exView exBuilder).toOption.map
        (fun u => u.elements.map render) =
      some ["<View version=\"1\" fragment=\"false\"><Group><Text><![CDATA[hi]]></Text></Group></View>"] :=
  visit_view_root exView exBuilder exViewOut rfl rfl

/-- Claim C3: When no writer capability is registered for an Asset block's
concrete payload type (the writer dispatch on the inline data misses),
asset extraction fails with a client-facing `DPClientError` whose
message names the unsupported payload type and the invoking context
(`XMLBuilder`). -/
theorem asset_unsupported_payload_error (s : XMLBuilder) (b : AssetData)
    (d : DataVal)
    (hmiss : ∀ pe, alookup s.prev b.aid = some pe →
        pe.klass ≠ s.store.fw_klass)
    (hdata : b.data = some d) (hw : d.wMeta = none) :
    visit (.asset b) s =
      .error (.DPClientError (d.tyName ++ " not supported for XMLBuilder")) ∧
    _add_asset_to_store s.store (alookup s.prev b.aid) b =
      .error (.DPClientError (d.tyName ++ " not supported for XMLBuilder")) := by
  have hu : add_asset_uncached s.store b =
      .error (.DPClientError (d.tyName ++ " not supported for XMLBuilder")) := by
    unfold add_asset_uncached
    rw [hdata]
    dsimp only
    rw [hw]
  have hx : _add_asset_to_store s.store (alookup s.prev b.aid) b =
      .error (.DPClientError (d.tyName ++ " not supported for XMLBuilder")) := by
    unfold _add_asset_to_store
    cases hp : alookup s.prev b.aid with
    | none => rw [hu]; rfl
    | some pe =>
        dsimp only
        rw [if_neg (hmiss pe hp), hu]
        rfl
  exact ⟨by simp [visit, hx], hx⟩

/-- Witness for the unsupported-payload claim: a `Frobnicator` payload
no writer is registered for. -/
theorem asset_unsupported_payload_error_w :
    visit (.asset exBadAsset) exBuilder =
      .error (.DPClientError "Frobnicator not supported for XMLBuilder") ∧
    _add_asset_to_store exBuilder.store
        (alookup exBuilder.prev exBadAsset.aid) exBadAsset =
      .error (.DPClientError "Frobnicator not supported for XMLBuilder") :=
  asset_unsupported_payload_error exBuilder exBadAsset exBadData
    (fun pe hpe => by cases hpe) rfl rfl

/-- Claim C4, counterexample: an Asset block with neither inline data nor
a file reference whose memoized prior entry matches the store's entry
class is visited *successfully* (the memoization check at the top of
`_add_asset_to_store` runs before the missing-asset check), so the
claim "for every Asset block with neither inline data nor a file
reference, visiting it fails with `No asset to add`" is false. -/
theorem asset_no_content_memoized_succeeds :
    exEmptyAsset.data = none ∧ exEmptyAsset.file = none ∧
    alookup exMemoBuilder.prev exEmptyAsset.aid = some exMemoEntry ∧
    exMemoEntry.klass = exMemoBuilder.store.fw_klass ∧
    ∃ s', visit (.asset exEmptyAsset) exMemoBuilder = .ok s' ∧
      s'.elements.length = 1 :=
  ⟨rfl, rfl, rfl, rfl, ⟨_, rfl, rfl⟩⟩

/-- Claim C4, amended: For every Asset block with neither inline data nor
a file reference *and no matching memoized prior store entry*, visiting
it fails with the client-visible error `No asset to add`, aborting the
traversal. -/
theorem asset_no_content_error (s : XMLBuilder) (b : AssetData)
    (hmiss : ∀ pe, alookup s.prev b.aid = some pe →
        pe.klass ≠ s.store.fw_klass)
    (hdata : b.data = none) (hfile : b.file = none) :
    visit (.asset b) s = .error (.DPClientError "No asset to add") ∧
    _add_asset_to_store s.store (alookup s.prev b.aid) b =
      .error (.DPClientError "No asset to add") := by
  have hu : add_asset_uncached s.store b =
      .error (.DPClientError "No asset to add") := by
    unfold add_asset_uncached
    rw [hdata]
    dsimp only
    rw [hfile]
  have hx : _add_asset_to_store s.store (alookup s.prev b.aid) b =
      .error (.DPClientError "No asset to add") := by
    unfold _add_asset_to_store
    cases hp : alookup s.prev b.aid with
    | none => rw [hu]; rfl
    | some pe =>
        dsimp only
        rw [if_neg (hmiss pe hp), hu]
        rfl
  exact ⟨by simp [visit, hx], hx⟩

/-- Witness for the amended missing-asset claim. -/
theorem asset_no_content_error_w :
    visit (.asset exEmptyAsset) exBuilder =
      .error (.DPClientError "No asset to add") ∧
    _add_asset_to_store exBuilder.store
        (alookup exBuilder.prev exEmptyAsset.aid) exEmptyAsset =
      .error (.DPClientError "No asset to add") :=
  asset_no_content_error exBuilder exEmptyAsset
    (fun pe hpe => by cases hpe) rfl rfl

/-- Claim C5: For every Asset block whose extraction succeeds with entry
`fe`, the emitted node carries `type` equal to `fe`'s mime type, `src`
equal to `"ref://"` followed by `fe`'s hash, and the key-wise union of
the block's declared attributes with its file-specific attributes in
which the file-specific value wins on any key collision; if the block
carries a (truthy) caption, the `caption` attribute is set after all
other attributes and is never overwritten by the attribute union. -/
theorem visit_asset_emitted_node (b : AssetData) (s : XMLBuilder)
    (fe pv : FileEntry) (st2 : FileStore)
    (hx : _add_asset_to_store s.store (alookup s.prev b.aid) b =
        .ok (fe, pv, st2))
    (ht : akey (dictMerge b.attrs b.fileAttribs) "type" = false)
    (hs : akey (dictMerge b.attrs b.fileAttribs) "src" = false) :
    ∃ e, visit (.asset b) s = .ok { s with
        store := st2, prev := aset s.prev b.aid pv,
        elements := s.elements ++ [e] } ∧
      e.getAttr "type" = some fe.mime ∧
      e.getAttr "src" = some ("ref://" ++ fe.hash) ∧
      (∀ k, k ≠ "type" → k ≠ "src" → k ≠ "caption" →
          e.getAttr k = alookup (dictMerge b.attrs b.fileAttribs) k) ∧
      (∀ k v, alookup b.fileAttribs k = some v →
          alookup (dictMerge b.attrs b.fileAttribs) k = some v) ∧
      (b.caption = none →
          e.getAttr "caption" =
            alookup (dictMerge b.attrs b.fileAttribs) "caption") ∧
      (∀ c, b.caption = some c → c ≠ "" →
          e.getAttr "caption" = some c) := by
  obtain ⟨e, hmk, h1, h2, h3, h4, h5, htag⟩ := mk_asset_element_attrs b fe ht hs
  refine ⟨e, by simp [visit, hx, hmk], h1, h2, h3, ?_, h4, h5⟩
  intro k v hv
  exact dictMerge_lookup_some _ hv

/-- Witness for the asset-node claim at a concrete Plot block. -/
theorem visit_asset_emitted_node_w :
    ∃ e, visit (.asset exAsset) exBuilder = .ok { exBuilder with
        store := FileStore.add_file
          { exStore with fresh := 1, writes := ["plot-bytes"] }
          ⟨0, "h0", "image/png", "png"⟩,
        prev := aset exBuilder.prev exAsset.aid ⟨0, "h0", "image/png", "png"⟩,
        elements := exBuilder.elements ++ [e] } ∧
      e.getAttr "type" = some (FileEntry.mime ⟨0, "h0", "image/png", "png"⟩) ∧
      e.getAttr "src" =
        some ("ref://" ++ FileEntry.hash ⟨0, "h0", "image/png", "png"⟩) ∧
      (∀ k, k ≠ "type" → k ≠ "src" → k ≠ "caption" →
          e.getAttr k = alookup (dictMerge exAsset.attrs exAsset.fileAttribs) k) ∧
      (∀ k v, alookup exAsset.fileAttribs k = some v →
          alookup (dictMerge exAsset.attrs exAsset.fileAttribs) k = some v) ∧
      (exAsset.caption = none →
          Element.getAttr e "caption" =
            alookup (dictMerge exAsset.attrs exAsset.fileAttribs) "caption") ∧
      (∀ c, exAsset.caption = some c → c ≠ "" →
          Element.getAttr e "caption" = some c) :=
  visit_asset_emitted_node exAsset exBuilder
    ⟨0, "h0", "image/png", "png"⟩ ⟨0, "h0", "image/png", "png"⟩
    (FileStore.add_file { exStore with fresh := 1, writes := ["plot-bytes"] }
      ⟨0, "h0", "image/png", "png"⟩)
    rfl rfl rfl

/-- Claim C9: Traversal never mutates any visited Block except that a
successful asset extraction sets the Asset block's memoized prior-entry
slot to the returned Store Entry — and it does so on every successful
path (in the embedding all block fields are immutable data; the only
block-owned mutable state threaded through the visitor is the
`_prev_entry` slot map `prev`): a successful visit leaves the slot of
every identity outside the visited tree unchanged, `_add_asset_to_store`
always returns the slot value equal to the returned entry, and a
successful asset visit stores exactly that entry in the block's slot. -/
theorem visit_mutates_only_prev_slot (b : Block) (s s' : XMLBuilder)
    (h : visit b s = .ok s') :
    (∀ i, i ∉ assetIds b → alookup s'.prev i = alookup s.prev i) ∧
    (∀ (st : FileStore) (pv : Option FileEntry) (c : AssetData)
        (r : FileEntry × FileEntry × FileStore),
        _add_asset_to_store st pv c = .ok r → r.2.1 = r.1) ∧
    (∀ (c : AssetData) (u u' : XMLBuilder), visit (.asset c) u = .ok u' →
        ∃ fe pv st2,
          _add_asset_to_store u.store (alookup u.prev c.aid) c =
            .ok (fe, pv, st2) ∧
          u'.prev = aset u.prev c.aid pv ∧
          alookup u'.prev c.aid = some fe) := by
  refine ⟨fun i hi => visit_prev_frame b s s' i h hi,
    fun st pv c r hr => add_asset_slot_eq_entry st pv c r hr, ?_⟩
  intro c u u' hc
  cases hx : _add_asset_to_store u.store (alookup u.prev c.aid) c with
  | ok r =>
      obtain ⟨fe, pv, st2⟩ := r
      cases hm : mk_asset_element c fe with
      | ok e =>
          simp [visit, hx, hm] at hc
          have hpv : pv = fe := add_asset_slot_eq_entry _ _ _ _ hx
          refine ⟨fe, pv, st2, rfl, by rw [← hc], ?_⟩
          rw [← hc]
          subst hpv
          exact aset_alookup_same _ _ _
      | error e => simp [visit, hx, hm] at hc
  | error e => simp [visit, hx] at hc

/-- Witness for the frame claim at a concrete asset visit. -/
theorem visit_mutates_only_prev_slot_w :
    (∀ i, i ∉ assetIds (.asset exAsset) →
        alookup
          (XMLBuilder.prev
            { exBuilder with
              store := FileStore.add_file
                { exStore with fresh := 1, writes := ["plot-bytes"] }
                ⟨0, "h0", "image/png", "png"⟩,
              prev := aset exBuilder.prev exAsset.aid
                ⟨0, "h0", "image/png", "png"⟩,
              elements := exBuilder.elements ++
                [.node "Plot"
                  (aset (asset_element_attrs exAsset
                    ⟨0, "h0", "image/png", "png"⟩) "caption" "cap") [] none] })
          i =
        alookup exBuilder.prev i) ∧
    (∀ (st : FileStore) (pv : Option FileEntry) (c : AssetData)
        (r : FileEntry × FileEntry × FileStore),
        _add_asset_to_store st pv c = .ok r → r.2.1 = r.1) ∧
    (∀ (c : AssetData) (u u' : XMLBuilder), visit (.asset c) u = .ok u' →
        ∃ fe pv st2,
          _add_asset_to_store u.store (alookup u.prev c.aid) c =
            .ok (fe, pv, st2) ∧
          u'.prev = aset u.prev c.aid pv ∧
          alookup u'.prev c.aid = some fe) :=
  visit_mutates_only_prev_slot (.asset exAsset) exBuilder
    { exBuilder with
      store := FileStore.add_file
        { exStore with fresh := 1, writes := ["plot-bytes"] }
        ⟨0, "h0", "image/png", "png"⟩,
      prev := aset exBuilder.prev exAsset.aid ⟨0, "h0", "image/png", "png"⟩,
      elements := exBuilder.elements ++
        [.node "Plot"
          (aset (asset_element_attrs exAsset ⟨0, "h0", "image/png", "png"⟩)
            "caption" "cap") [] none] }
    rfl

/-- Claim C10: For every Asset block whose extraction succeeds, building
the output node is only defined when the union of the block's declared
attributes and its file-specific attributes contains neither the key
`type` nor the key `src`; if either key is present in that union, node
construction fails (Python's duplicate-keyword-argument `TypeError`)
rather than letting the block's value or the computed mime/hash win. -/
theorem asset_duplicate_keyword_guard (b : AssetData) (s : XMLBuilder)
    (fe pv : FileEntry) (st2 : FileStore)
    (hx : _add_asset_to_store s.store (alookup s.prev b.aid) b =
        .ok (fe, pv, st2))
    (hk : akey (dictMerge b.attrs b.fileAttribs) "type" = true ∨
        akey (dictMerge b.attrs b.fileAttribs) "src" = true) :
    visit (.asset b) s =
      .error (.TypeError "got multiple values for keyword argument") ∧
    ∀ (c : AssetData) (g : FileEntry),
      (∃ e, mk_asset_element c g = .ok e) ↔
        (akey (dictMerge c.attrs c.fileAttribs) "type" = false ∧
         akey (dictMerge c.attrs c.fileAttribs) "src" = false) := by
  have hgen : ∀ (c : AssetData) (g : FileEntry),
      (akey (dictMerge c.attrs c.fileAttribs) "type" = true ∨
       akey (dictMerge c.attrs c.fileAttribs) "src" = true) →
      mk_asset_element c g =
        .error (.TypeError "got multiple values for keyword argument") := by
    intro c g hcg
    unfold mk_asset_element
    rcases hcg with hcg | hcg
    · rw [hcg]; rfl
    · rw [hcg, Bool.or_true]; rfl
  refine ⟨by simp [visit, hx, hgen b fe hk], ?_⟩
  intro c g
  cases h1 : akey (dictMerge c.attrs c.fileAttribs) "type" with
  | true =>
      constructor
      · rintro ⟨e, he⟩
        rw [hgen c g (Or.inl h1)] at he
        cases he
      · rintro ⟨hf, _⟩
        cases hf
  | false =>
      cases h2 : akey (dictMerge c.attrs c.fileAttribs) "src" with
      | true =>
          constructor
          · rintro ⟨e, he⟩
            rw [hgen c g (Or.inr h2)] at he
            cases he
          · rintro ⟨_, hf⟩
            cases hf
      | false =>
          constructor
          · intro _
            exact ⟨rfl, rfl⟩
          · intro _
            obtain ⟨e, he, _⟩ := mk_asset_element_attrs c g h1 h2
            exact ⟨e, he⟩

/-- Witness for the duplicate-keyword claim: a block whose own
attributes already contain `type`. -/
theorem asset_duplicate_keyword_guard_w :
    visit (.asset exKwAsset) exBuilder =
      .error (.TypeError "got multiple values for keyword argument") ∧
    ∀ (c : AssetData) (g : FileEntry),
      (∃ e, mk_asset_element c g = .ok e) ↔
        (akey (dictMerge c.attrs c.fileAttribs) "type" = false ∧
         akey (dictMerge c.attrs c.fileAttribs) "src" = false) :=
  asset_duplicate_keyword_guard exKwAsset exBuilder
    ⟨0, "fp.bin", "application/octet-stream", ""⟩
    ⟨0, "fp.bin", "application/octet-stream", ""⟩
    (FileStore.add_file exStore ⟨0, "fp.bin", "application/octet-stream", ""⟩)
    rfl (Or.inl rfl)

/-- The entry allocated by `get_file` for given metadata, and the store
after the inline-data branch has written one payload (allocation,
write, registration). -/
def fresh_entry (st : FileStore) (meta : AssetMeta) : FileEntry :=
  ⟨st.fw_klass, "h" ++ toString st.fresh, meta.mime, meta.ext⟩

def store_after_write (st : FileStore) (d : DataVal) (meta : AssetMeta) :
    FileStore :=
  FileStore.add_file
    { st with fresh := st.fresh + 1, writes := st.writes ++ [d.bytes] }
    (fresh_entry st meta)

/-- Claim C2: For every Asset block whose memoized prior Store Entry is
set and whose concrete type equals the store's expected entry type,
`_add_asset_to_store` re-registers that entry with the store
(`add_file`) and returns it without allocating a fresh entry or writing
bytes; consequently, a traversal of a tree containing the same Asset
block (same identity) twice writes the underlying payload to the store
exactly once, and the second emitted node — hence its `src` reference —
is identical to the first. -/
theorem asset_memoized_single_write (s : XMLBuilder) (t : String)
    (a : List (String × String)) (b : AssetData) (d : DataVal)
    (meta : AssetMeta)
    (hprev : alookup s.prev b.aid = none)
    (hdata : b.data = some d)
    (hmeta : d.wMeta = some meta)
    (ht : akey (dictMerge b.attrs b.fileAttribs) "type" = false)
    (hs : akey (dictMerge b.attrs b.fileAttribs) "src" = false) :
    (∀ (st : FileStore) (pe : FileEntry) (c : AssetData),
        pe.klass = st.fw_klass →
        _add_asset_to_store st (some pe) c = .ok (pe, pe, st.add_file pe) ∧
        (st.add_file pe).writes = st.writes ∧
        (st.add_file pe).fresh = st.fresh) ∧
    ∃ s' e, visit (.container t a [.asset b, .asset b]) s = .ok s' ∧
      s'.elements = s.elements ++ [.node t a [e, e] none] ∧
      e.getAttr "src" =
        some ("ref://" ++ ("h" ++ toString s.store.fresh)) ∧
      s'.store.writes = s.store.writes ++ [d.bytes] := by
  have memo : ∀ (st : FileStore) (pe : FileEntry) (c : AssetData),
      pe.klass = st.fw_klass →
      _add_asset_to_store st (some pe) c = .ok (pe, pe, st.add_file pe) ∧
      (st.add_file pe).writes = st.writes ∧
      (st.add_file pe).fresh = st.fresh := by
    intro st pe c hkl
    refine ⟨?_, add_file_writes st pe, add_file_fresh st pe⟩
    unfold _add_asset_to_store
    dsimp only
    rw [if_pos hkl]
  have hx1 : _add_asset_to_store s.store (alookup s.prev b.aid) b =
      .ok (fresh_entry s.store meta, fresh_entry s.store meta,
        store_after_write s.store d meta) := by
    rw [hprev]
    unfold _add_asset_to_store
    rw [add_asset_data_branch s.store b d meta hdata hmeta]
    rfl
  obtain ⟨e, hmk, hty, hsrc, _, _, _, _⟩ :=
    mk_asset_element_attrs b (fresh_entry s.store meta) ht hs
  have hv1 : visit (.asset b) { s with elements := [] } = .ok
      ⟨store_after_write s.store d meta, [e],
        aset s.prev b.aid (fresh_entry s.store meta), s.nameCtr⟩ := by
    simp [visit, hx1, hmk]
  have hl2 : alookup (aset s.prev b.aid (fresh_entry s.store meta)) b.aid =
      some (fresh_entry s.store meta) :=
    aset_alookup_same _ _ _
  have hkl2 : (fresh_entry s.store meta).klass =
      (store_after_write s.store d meta).fw_klass := by
    unfold store_after_write
    rw [add_file_fw_klass]
    rfl
  obtain ⟨hx2, hw2, _⟩ :=
    memo (store_after_write s.store d meta) (fresh_entry s.store meta) b hkl2
  have hv2 : visit (.asset b)
      ⟨store_after_write s.store d meta, [e],
        aset s.prev b.aid (fresh_entry s.store meta), s.nameCtr⟩ = .ok
      ⟨(store_after_write s.store d meta).add_file (fresh_entry s.store meta),
        [e, e],
        aset (aset s.prev b.aid (fresh_entry s.store meta)) b.aid
          (fresh_entry s.store meta),
        s.nameCtr⟩ := by
    simp [visit, hl2, hx2, hmk]
  have hlist : visitList [.asset b, .asset b] { s with elements := [] } = .ok
      ⟨(store_after_write s.store d meta).add_file (fresh_entry s.store meta),
        [e, e],
        aset (aset s.prev b.aid (fresh_entry s.store meta)) b.aid
          (fresh_entry s.store meta),
        s.nameCtr⟩ := by
    simp [visitList, hv1, hv2]
  refine ⟨memo,
    ⟨⟨(store_after_write s.store d meta).add_file (fresh_entry s.store meta),
      s.elements ++ [.node t a [e, e] none],
      aset (aset s.prev b.aid (fresh_entry s.store meta)) b.aid
        (fresh_entry s.store meta),
      s.nameCtr⟩, e, ?_, rfl, hsrc, ?_⟩⟩
  · simp [visit, hlist]
  · show ((store_after_write s.store d meta).add_file
        (fresh_entry s.store meta)).writes = s.store.writes ++ [d.bytes]
    rw [add_file_writes]
    unfold store_after_write
    rw [add_file_writes]

/-- Witness for the memoized-single-write claim at a concrete tree
holding the same Plot block twice. -/
theorem asset_memoized_single_write_w :
    (∀ (st : FileStore) (pe : FileEntry) (c : AssetData),
        pe.klass = st.fw_klass →
        _add_asset_to_store st (some pe) c = .ok (pe, pe, st.add_file pe) ∧
        (st.add_file pe).writes = st.writes ∧
        (st.add_file pe).fresh = st.fresh) ∧
    ∃ s' e, visit (.container "Group" [] [.asset exAsset, .asset exAsset])
        exBuilder = .ok s' ∧
      s'.elements = exBuilder.elements ++ [.node "Group" [] [e, e] none] ∧
      e.getAttr "src" =
        some ("ref://" ++ ("h" ++ toString exBuilder.store.fresh)) ∧
      s'.store.writes = exBuilder.store.writes ++ [exData.bytes] :=
  asset_memoized_single_write exBuilder "Group" [] exAsset exData exMeta
    rfl rfl rfl rfl rfl

end Datapane
